import Mathlib

/-!
Verification development for the `webshare` utility (miku/miscutils).

The repository has two near-identical versions of `cmd/webshare/main.go`;
both inspect the host's interface addresses, classify them private/public
against a fixed reserved-range table, match their textual form against
user-supplied patterns, and render at most a bounded number of QR codes,
then serve a directory over HTTP.

Below, Go's `net.IP` is embedded as a list of byte values (`List Nat`,
each < 256), exactly as Go represents an IP as a byte slice of length 4
or 16.  The functions `to4`, `isLoopback`, `isLinkLocalUnicast`,
`isLinkLocalMulticast`, `IPNet.contains`, `parseCIDR` follow the Go
standard library's implementations (package `net`); `goFields` and
`goReplaceCommas` follow `strings.Fields` / `strings.ReplaceAll`.
The address-selection loop of `main` is embedded as `processAddr` /
`selectLoop` / `selectPhase`, producing the observable event trace
(log lines and QR-renderer invocations).
-/

namespace Webshare

/-- An IP address as Go represents it: a byte slice (length 4 or 16). -/
abbrev IP := List Nat

/-- Go `net.IP.To4`: the 4-byte form of an IPv4 address (length 4) or an
IPv4-mapped address (length 16, ten zero bytes then `0xff 0xff`), `none`
otherwise. -/
def to4 (ip : IP) : Option IP :=
  match ip with
  | [a, b, c, d] => some [a, b, c, d]
  | [0, 0, 0, 0, 0, 0, 0, 0, 0, 0, 0xff, 0xff, a, b, c, d] => some [a, b, c, d]
  | _ => none

/-- The IPv6 loopback address `::1` as a 16-byte value. -/
def v6Loopback : IP := [0, 0, 0, 0, 0, 0, 0, 0, 0, 0, 0, 0, 0, 0, 0, 1]

/-- Go `net.IP.IsLoopback`. -/
def isLoopback (ip : IP) : Bool :=
  match to4 ip with
  | some ip4 => ip4.getD 0 0 == 127
  | none => decide (ip = v6Loopback)

/-- Go `net.IP.IsLinkLocalUnicast`. -/
def isLinkLocalUnicast (ip : IP) : Bool :=
  match to4 ip with
  | some ip4 => ip4.getD 0 0 == 169 && ip4.getD 1 0 == 254
  | none =>
    ip.length == 16 && ip.getD 0 0 == 0xfe && (ip.getD 1 0) &&& 0xc0 == 0x80

/-- Go `net.IP.IsLinkLocalMulticast`. -/
def isLinkLocalMulticast (ip : IP) : Bool :=
  match to4 ip with
  | some ip4 => ip4.getD 0 0 == 224 && ip4.getD 1 0 == 0 && ip4.getD 2 0 == 0
  | none =>
    ip.length == 16 && ip.getD 0 0 == 0xff && (ip.getD 1 0) &&& 0x0f == 0x02

/-- A parsed network range: base address and mask, as Go's `net.IPNet`. -/
structure IPNet where
  ip : IP
  mask : IP
  deriving DecidableEq, Repr

/-- Byte-wise masked comparison used by Go `net.IPNet.Contains`: network
byte AND mask byte must equal address byte AND mask byte, position-wise. -/
def maskedEqAux : List Nat → List Nat → List Nat → Bool
  | nb :: nbs, mb :: mbs, xb :: xbs =>
    (nb &&& mb == xb &&& mb) && maskedEqAux nbs mbs xbs
  | [], _, [] => true
  | _, _, _ => false

/-- Go `net.IPNet.Contains`: reduce the address to 4-byte form when
possible, require matching lengths, then compare under the mask. -/
def IPNet.contains (n : IPNet) (x : IP) : Bool :=
  let nn := match to4 x with
    | some x4 => x4
    | none => x
  nn.length == n.ip.length && maskedEqAux n.ip n.mask nn

/-- Go `net.dtoi`: parse a decimal number from the front of `s`, returning
the value, the count of characters consumed, and a success flag; values
reaching `0xFFFFFF` overflow. Invoke as `dtoiGo s 0 0`. -/
def dtoiGo : List Char → Nat → Nat → Nat × Nat × Bool
  | c :: cs, n, i =>
    if 48 ≤ c.toNat ∧ c.toNat ≤ 57 then
      let n2 := n * 10 + (c.toNat - 48)
      if 0xFFFFFF ≤ n2 then (0xFFFFFF, i, false)
      else dtoiGo cs n2 (i + 1)
    else (n, i, i != 0)
  | [], n, i => (n, i, i != 0)

/-- Value of a hexadecimal digit character, if it is one. -/
def hexDigitVal (c : Char) : Option Nat :=
  if 48 ≤ c.toNat ∧ c.toNat ≤ 57 then some (c.toNat - 48)
  else if 97 ≤ c.toNat ∧ c.toNat ≤ 102 then some (c.toNat - 87)
  else if 65 ≤ c.toNat ∧ c.toNat ≤ 70 then some (c.toNat - 55)
  else none

/-- Go `net.xtoi`: parse a hexadecimal number from the front of `s`.
Invoke as `xtoiGo s 0 0`. -/
def xtoiGo : List Char → Nat → Nat → Nat × Nat × Bool
  | c :: cs, n, i =>
    match hexDigitVal c with
    | some d =>
      let n2 := n * 16 + d
      if 0xFFFFFF ≤ n2 then (0, i, false)
      else xtoiGo cs n2 (i + 1)
    | none => (n, i, i != 0)
  | [], n, i => (n, i, i != 0)

/-- One dotted-decimal field of an IPv4 literal: a decimal value of at
most 255 with no leading zero, as in Go `net.parseIPv4`. Returns the
value and the remaining characters. -/
def parseV4Field (s : List Char) : Option (Nat × List Char) :=
  match dtoiGo s 0 0 with
  | (n, c, ok) =>
    if ok ∧ n ≤ 0xFF ∧ ¬(1 < c ∧ s.getD 0 ' ' = '0') then some (n, s.drop c)
    else none

/-- The last three fields of an IPv4 literal, each preceded by a dot;
the characters must be exhausted at the end. -/
def parseV4Rest : Nat → List Char → Option (List Nat)
  | 0, s => if s.isEmpty then some [] else none
  | k + 1, s =>
    match s with
    | '.' :: r =>
      match parseV4Field r with
      | some (n, r2) => (parseV4Rest k r2).map (n :: ·)
      | none => none
    | _ => none

/-- Go `net.parseIPv4`: a dotted-decimal IPv4 literal, returned in Go's
16-byte IPv4-in-IPv6 mapped form (as Go's `IPv4()` constructor does). -/
def parseIPv4 (s : List Char) : Option IP :=
  match parseV4Field s with
  | some (a, r) =>
    match parseV4Rest 3 r with
    | some rest => some (List.replicate 10 0 ++ [0xff, 0xff] ++ (a :: rest))
    | none => none
  | none => none

/-- Loop of Go `net.parseIPv6`: consume colon-separated hexadecimal
groups, recording the position of a single `::` ellipsis. Returns the
accumulated bytes, the ellipsis position, and leftover characters.
Eight iterations fill all sixteen bytes, so fuel 8 is exact.
The embedded-IPv4 tail form (`::ffff:1.2.3.4`) is not modeled: the
repository's built-in table contains none. -/
def p6loop : Nat → List Char → List Nat → Option Nat →
    Option (List Nat × Option Nat × List Char)
  | 0, s, acc, ell => some (acc, ell, s)
  | fuel + 1, s, acc, ell =>
    if 16 ≤ acc.length then some (acc, ell, s)
    else
      match xtoiGo s 0 0 with
      | (n, c, ok) =>
        if ¬ok ∨ 0xFFFF < n then none
        else
          let acc2 := acc ++ [n >>> 8, n &&& 0xFF]
          match s.drop c with
          | [] => some (acc2, ell, [])
          | [_] => none
          | c1 :: c2 :: rest =>
            if c1 ≠ ':' then none
            else if c2 = ':' then
              if ell.isSome then none
              else
                match rest with
                | [] => some (acc2, some acc2.length, [])
                | _ => p6loop fuel rest acc2 (some acc2.length)
            else p6loop fuel (c2 :: rest) acc2 ell

/-- Final expansion step of Go `net.parseIPv6`: reject leftover input,
then expand the ellipsis with zero bytes to reach sixteen bytes. -/
def p6finish : Option (List Nat × Option Nat × List Char) → Option IP
  | none => none
  | some (acc, ell, s) =>
    if ¬s.isEmpty then none
    else if acc.length < 16 then
      match ell with
      | none => none
      | some e => some (acc.take e ++ List.replicate (16 - acc.length) 0 ++ acc.drop e)
    else if ell.isSome then none
    else some acc

/-- Go `net.parseIPv6` on zoneless literals without an embedded IPv4 tail. -/
def parseIPv6 (s : List Char) : Option IP :=
  match s with
  | ':' :: ':' :: rest =>
    match rest with
    | [] => some (List.replicate 16 0)
    | _ => p6finish (p6loop 8 rest [] (some 0))
  | _ => p6finish (p6loop 8 s [] none)

/-- Byte expansion of Go `net.CIDRMask`: `ones` leading one bits over
`l` bytes. -/
def cidrMaskBytes : Nat → Nat → List Nat
  | 0, _ => []
  | l + 1, n =>
    if 8 ≤ n then 0xff :: cidrMaskBytes l (n - 8)
    else (0xff - (0xff >>> n)) :: cidrMaskBytes l 0

/-- Go `net.CIDRMask`: a mask of `ones` leading one bits out of `bits`,
where `bits` is 32 or 128. -/
def cidrMask (ones bits : Nat) : Option IP :=
  if (bits = 32 ∨ bits = 128) ∧ ones ≤ bits then some (cidrMaskBytes (bits / 8) ones)
  else none

/-- Go `net.IP.Mask`: adjust representation widths, then AND byte-wise. -/
def maskIP (ip m : IP) : Option IP :=
  let m2 := if m.length = 16 ∧ ip.length = 4 then m.drop 12 else m
  let ip2 := if m2.length = 4 ∧ ip.length = 16 ∧ (to4 ip).isSome then ip.drop 12 else ip
  if ip2.length = m2.length then some (List.zipWith (· &&& ·) ip2 m2) else none

/-- Split at the first slash character, as Go `net.ParseCIDR` does. -/
def splitSlash : List Char → Option (List Char × List Char)
  | [] => none
  | '/' :: r => some ([], r)
  | c :: r => (splitSlash r).map (fun p => (c :: p.1, p.2))

/-- Go `net.ParseCIDR`, returning the network (`IPNet`) component:
address part parsed as IPv4 then IPv6, decimal mask length bounded by
the address width, network address masked down. -/
def parseCIDR (s : String) : Option IPNet :=
  match splitSlash s.data with
  | none => none
  | some (addr, maskStr) =>
    let parsed : Option IP × Nat :=
      match parseIPv4 addr with
      | some ip => (some ip, 4)
      | none => (parseIPv6 addr, 16)
    match parsed.1 with
    | none => none
    | some ip =>
      match dtoiGo maskStr 0 0 with
      | (n, i, ok) =>
        if ¬ok ∨ i ≠ maskStr.length ∨ 8 * parsed.2 < n then none
        else
          match cidrMask n (8 * parsed.2) with
          | none => none
          | some m =>
            match maskIP ip m with
            | none => none
            | some netIP => some ⟨netIP, m⟩

/-- The built-in reserved-range list of `setupPrivateIPBlocks`, in source
order. -/
def builtinCidrs : List String :=
  ["127.0.0.0/8", "10.0.0.0/8", "172.16.0.0/12", "192.168.0.0/16",
   "169.254.0.0/16", "::1/128", "fe80::/10", "fc00::/7"]

/-- The table-building loop of `setupPrivateIPBlocks`: parse each entry
in order, aborting with a descriptive message (Go `panic`) at the first
entry that fails to parse. -/
def setupFrom : List String → Except String (List IPNet)
  | [] => .ok []
  | c :: cs =>
    match parseCIDR c with
    | none => .error ("parse error on " ++ c)
    | some blk =>
      match setupFrom cs with
      | .ok rest => .ok (blk :: rest)
      | .error e => .error e

/-- The whole of `setupPrivateIPBlocks` applied to the built-in list. -/
def setupPrivateIPBlocks : Except String (List IPNet) := setupFrom builtinCidrs

/-- The value of the package-level `privateIPBlocks` variable after
`init` has run: the eight parsed reserved ranges. -/
def privateIPBlocks : List IPNet :=
  [⟨[127, 0, 0, 0], [255, 0, 0, 0]⟩,
   ⟨[10, 0, 0, 0], [255, 0, 0, 0]⟩,
   ⟨[172, 16, 0, 0], [255, 240, 0, 0]⟩,
   ⟨[192, 168, 0, 0], [255, 255, 0, 0]⟩,
   ⟨[169, 254, 0, 0], [255, 255, 0, 0]⟩,
   ⟨v6Loopback,
    [255, 255, 255, 255, 255, 255, 255, 255, 255, 255, 255, 255, 255, 255, 255, 255]⟩,
   ⟨[0xfe, 0x80, 0, 0, 0, 0, 0, 0, 0, 0, 0, 0, 0, 0, 0, 0],
    [255, 192, 0, 0, 0, 0, 0, 0, 0, 0, 0, 0, 0, 0, 0, 0]⟩,
   ⟨[0xfc, 0, 0, 0, 0, 0, 0, 0, 0, 0, 0, 0, 0, 0, 0, 0],
    [254, 0, 0, 0, 0, 0, 0, 0, 0, 0, 0, 0, 0, 0, 0, 0]⟩]

/-- Go `isPrivateIP`: loopback and link-local checks, then membership in
the parsed reserved-range table. -/
def isPrivateIP (ip : IP) : Bool :=
  if isLoopback ip || isLinkLocalUnicast ip || isLinkLocalMulticast ip then true
  else privateIPBlocks.any (fun blk => blk.contains ip)

/-- Go `unicode.IsSpace` restricted to the Latin-1 range, which covers
every character the flag values in this design can contain. -/
def goIsSpace (c : Char) : Bool :=
  c = ' ' ∨ c = '\t' ∨ c = '\n' ∨ c.toNat = 11 ∨ c.toNat = 12 ∨
  c = '\r' ∨ c.toNat = 0x85 ∨ c.toNat = 0xA0

/-- Go `strings.Fields` core: maximal runs of non-space characters, in
order; `cur` holds the current run reversed. -/
def fieldsCore (p : Char → Bool) : List Char → List Char → List (List Char)
  | cur, [] => if cur.isEmpty then [] else [cur.reverse]
  | cur, c :: cs =>
    if p c then
      if cur.isEmpty then fieldsCore p [] cs
      else cur.reverse :: fieldsCore p [] cs
    else fieldsCore p (c :: cur) cs

/-- Go `strings.ReplaceAll(s, ",", " ")` for the single-character
pattern: a character map. -/
def goReplaceCommas (c : Char) : Char := if c = ',' then ' ' else c

/-- Go `parsePrefixes` from both source versions: replace commas with
spaces, then split on whitespace runs. -/
def parsePrefixes (input : String) : List String :=
  (fieldsCore goIsSpace [] (input.data.map goReplaceCommas)).map List.asString

/-- Go `strings.HasPrefix s pat` on the underlying character lists. -/
def goHasPrefix (s pat : String) : Bool :=
  pat.data.isPrefixOf s.data

/-- Go `fmt.Sprintf` of a byte in decimal, then the dotted-quad form of a
4-byte address, which is what `net.IP.String` prints for any address
whose `To4` form exists. -/
def dottedQuad : List Nat → String
  | [a, b, c, d] =>
    Nat.repr a ++ "." ++ Nat.repr b ++ "." ++ Nat.repr c ++ "." ++ Nat.repr d
  | _ => ""

/-- Textual form `net.IP.String` gives a candidate inside the loop: the
loop only reaches it under `To4() != nil`, where Go prints the dotted
quad of the 4-byte form. -/
def ipText (ip : IP) : String :=
  match to4 ip with
  | some ip4 => dottedQuad ip4
  | none => ""

/-- The URL form logged and handed to the QR renderer:
`fmt.Sprintf("http://%s:%d", ipnet.IP.String(), *port)`. -/
def mkLink (pt : Nat) (ip : IP) : String :=
  "http://" ++ ipText ip ++ ":" ++ Nat.repr pt

/-- An element of `net.InterfaceAddrs()`: the loop type-asserts each to
`*net.IPNet` and skips any other dynamic type. -/
inductive GoAddr where
  | ipNet (n : IPNet)
  | other
  deriving DecidableEq, Repr

/-- Observable actions of the selection phase: a per-candidate log line,
or an invocation of the QR renderer (the Presentation Sink) with a URL. -/
inductive Event where
  | logLine (line : String)
  | qr (url : String)
  deriving DecidableEq, Repr

/-- Mutable state of the selection loop: the `qrGenerated` flag and the
fallback link (set exactly when `fallbackIP` is set, since both are
assigned together). -/
structure SelState where
  qrGenerated : Bool
  fallback : Option String
  deriving DecidableEq, Repr

/-- Inner pattern loop: the first pattern in order that is a string
prefix of the candidate's textual form, if any; the loop breaks there. -/
def firstMatchingPat (s : String) : List String → Option String
  | [] => none
  | p :: ps => if goHasPrefix s p then some p else firstMatchingPat s ps

/-- One iteration of the candidate loop of `main`: skip non-`IPNet`
addresses and non-IPv4 addresses; otherwise log the URL with its
private/public mark, render a QR code on the first matching pattern,
and record the first public candidate as fallback. -/
def processAddr (pt : Nat) (pats : List String) (st : SelState) (a : GoAddr) :
    SelState × List Event :=
  match a with
  | .other => (st, [])
  | .ipNet n =>
    match to4 n.ip with
    | none => (st, [])
    | some _ =>
      let mark := if isPrivateIP n.ip then "private" else "public"
      let link := mkLink pt n.ip
      let logEv := Event.logLine (link ++ " [" ++ mark ++ "]")
      let (st2, qrEvs) :=
        match firstMatchingPat (ipText n.ip) pats with
        | some _ => ({ st with qrGenerated := true }, [Event.qr link])
        | none => (st, [])
      let st3 :=
        if ¬isPrivateIP n.ip ∧ st2.fallback = none then
          { st2 with fallback := some link }
        else st2
      (st3, logEv :: qrEvs)

/-- The candidate loop followed by the fallback step of `main`: after the
last candidate, render the fallback link when no QR code was generated
and a public fallback exists. -/
def selectLoop (pt : Nat) (pats : List String) : List GoAddr → SelState → List Event
  | [], st =>
    if ¬st.qrGenerated then
      match st.fallback with
      | some l => [Event.qr l]
      | none => []
    else []
  | a :: rest, st =>
    let (st2, evs) := processAddr pt pats st a
    evs ++ selectLoop pt pats rest st2

/-- The whole address-selection phase of `main`, from fresh state. -/
def selectPhase (pt : Nat) (pats : List String) (addrs : List GoAddr) : List Event :=
  selectLoop pt pats addrs ⟨false, none⟩

/-- URLs handed to the QR renderer, in order, extracted from a trace. -/
def qrLinks (evs : List Event) : List String :=
  evs.filterMap (fun e => match e with | .qr u => some u | .logLine _ => none)

/-- Candidates whose textual form matches some pattern, with their URLs:
one entry per matching candidate, in enumeration order. -/
def matchLinks (pt : Nat) (pats : List String) (addrs : List GoAddr) : List String :=
  addrs.filterMap (fun a =>
    match a with
    | .ipNet n =>
      match to4 n.ip with
      | some _ =>
        match firstMatchingPat (ipText n.ip) pats with
        | some _ => some (mkLink pt n.ip)
        | none => none
      | none => none
    | .other => none)

/-- URL of the first candidate that classifies as public (IPv4 and not
private), tracked by the loop regardless of pattern matching. -/
def firstPublic (pt : Nat) : List GoAddr → Option String
  | [] => none
  | .other :: rest => firstPublic pt rest
  | .ipNet n :: rest =>
    match to4 n.ip with
    | none => firstPublic pt rest
    | some _ =>
      if ¬isPrivateIP n.ip then some (mkLink pt n.ip)
      else firstPublic pt rest

/-- First-of-two options, mirroring how the loop keeps `fallbackIP` once
set and otherwise adopts the first public candidate still to come. -/
def optFirst (a b : Option String) : Option String :=
  match a with
  | some x => some x
  | none => b

/-- The startup portion of `main` around interface enumeration: an
enumeration failure is `log.Fatal` (report then non-zero exit) before any
selection, QR rendering or serving; success runs the selection phase and
then serves. -/
inductive StartupResult where
  | fatalExit (msg : String)
  | serving (trace : List Event)
  deriving DecidableEq, Repr

/-- Startup control flow of `main`: `net.InterfaceAddrs()` either fails,
hitting `log.Fatal(err)`, or yields the candidate snapshot that the
selection phase consumes. -/
def startup (enum : Except String (List GoAddr)) (pt : Nat) (raw : String) :
    StartupResult :=
  match enum with
  | .error e => .fatalExit e
  | .ok addrs => .serving (selectPhase pt (parsePrefixes raw) addrs)

/-- Observable selection-phase events of a startup outcome; a fatal exit
produces none. -/
def startupEvents : StartupResult → List Event
  | .fatalExit _ => []
  | .serving t => t

/-- Shutdown phases of the share session in the second source version. -/
inductive Phase where
  | serving
  | stopping
  deriving DecidableEq, Repr

/-- The two shutdown trigger sources of the second source version: the
`time.AfterFunc` countdown callback and the signal-channel goroutine. -/
inductive Trigger where
  | timerFires
  | interrupt
  deriving DecidableEq, Repr

/-- The `context.WithCancel` context whose `cancel` both trigger sources
call: a done flag that latches. -/
structure ShutdownCtx where
  done : Bool
  deriving DecidableEq, Repr

/-- Go `cancel()`: set the done flag; calling it again changes nothing. -/
def cancelCtx (_c : ShutdownCtx) : ShutdownCtx := ⟨true⟩

/-- Each trigger occurrence just calls `cancel()` on the shared context. -/
def applyTrigger (c : ShutdownCtx) (_t : Trigger) : ShutdownCtx := cancelCtx c

/-- Fold a sequence of trigger occurrences over the shared context. -/
def runTriggers : ShutdownCtx → List Trigger → ShutdownCtx
  | c, [] => c
  | c, t :: ts => runTriggers (applyTrigger c t) ts

/-- The session serves until `<-ctx.Done()` fires, then it is stopping. -/
def sessionPhase (c : ShutdownCtx) : Phase :=
  if c.done then .stopping else .serving

/-!
Second source version (`src/unnamed/part_000`). Its `parsePrefixes`,
`setupPrivateIPBlocks`, `isPrivateIP` and the address-selection portion
of `main` are embedded again, verbatim, to state that the two versions'
startup selection phases coincide. Helpers that embed the Go standard
library (`to4`, `fieldsCore`, `IPNet.contains`, ...) are shared, as both
files import the same library.
-/

/-- Go `parsePrefixes` as it appears in the second source version. -/
def parsePrefixes2 (input : String) : List String :=
  (fieldsCore goIsSpace [] (input.data.map goReplaceCommas)).map List.asString

/-- The built-in reserved-range list of the second source version. -/
def builtinCidrs2 : List String :=
  ["127.0.0.0/8", "10.0.0.0/8", "172.16.0.0/12", "192.168.0.0/16",
   "169.254.0.0/16", "::1/128", "fe80::/10", "fc00::/7"]

/-- Table building of the second source version. -/
def setupPrivateIPBlocks2 : Except String (List IPNet) := setupFrom builtinCidrs2

/-- The parsed table of the second source version. -/
def privateIPBlocks2 : List IPNet :=
  [⟨[127, 0, 0, 0], [255, 0, 0, 0]⟩,
   ⟨[10, 0, 0, 0], [255, 0, 0, 0]⟩,
   ⟨[172, 16, 0, 0], [255, 240, 0, 0]⟩,
   ⟨[192, 168, 0, 0], [255, 255, 0, 0]⟩,
   ⟨[169, 254, 0, 0], [255, 255, 0, 0]⟩,
   ⟨v6Loopback,
    [255, 255, 255, 255, 255, 255, 255, 255, 255, 255, 255, 255, 255, 255, 255, 255]⟩,
   ⟨[0xfe, 0x80, 0, 0, 0, 0, 0, 0, 0, 0, 0, 0, 0, 0, 0, 0],
    [255, 192, 0, 0, 0, 0, 0, 0, 0, 0, 0, 0, 0, 0, 0, 0]⟩,
   ⟨[0xfc, 0, 0, 0, 0, 0, 0, 0, 0, 0, 0, 0, 0, 0, 0, 0],
    [254, 0, 0, 0, 0, 0, 0, 0, 0, 0, 0, 0, 0, 0, 0, 0]⟩]

/-- Go `isPrivateIP` of the second source version. -/
def isPrivateIP2 (ip : IP) : Bool :=
  if isLoopback ip || isLinkLocalUnicast ip || isLinkLocalMulticast ip then true
  else privateIPBlocks2.any (fun blk => blk.contains ip)

/-- Inner pattern loop of the second source version's `main`. -/
def firstMatchingPat2 (s : String) : List String → Option String
  | [] => none
  | p :: ps => if goHasPrefix s p then some p else firstMatchingPat2 s ps

/-- One candidate-loop iteration of the second source version's `main`. -/
def processAddr2 (pt : Nat) (pats : List String) (st : SelState) (a : GoAddr) :
    SelState × List Event :=
  match a with
  | .other => (st, [])
  | .ipNet n =>
    match to4 n.ip with
    | none => (st, [])
    | some _ =>
      let mark := if isPrivateIP2 n.ip then "private" else "public"
      let link := mkLink pt n.ip
      let logEv := Event.logLine (link ++ " [" ++ mark ++ "]")
      let (st2, qrEvs) :=
        match firstMatchingPat2 (ipText n.ip) pats with
        | some _ => ({ st with qrGenerated := true }, [Event.qr link])
        | none => (st, [])
      let st3 :=
        if ¬isPrivateIP2 n.ip ∧ st2.fallback = none then
          { st2 with fallback := some link }
        else st2
      (st3, logEv :: qrEvs)

/-- Candidate loop plus fallback step of the second source version. -/
def selectLoop2 (pt : Nat) (pats : List String) : List GoAddr → SelState → List Event
  | [], st =>
    if ¬st.qrGenerated then
      match st.fallback with
      | some l => [Event.qr l]
      | none => []
    else []
  | a :: rest, st =>
    let (st2, evs) := processAddr2 pt pats st a
    evs ++ selectLoop2 pt pats rest st2

/-- The whole address-selection phase of the second source version. -/
def selectPhase2 (pt : Nat) (pats : List String) (addrs : List GoAddr) : List Event :=
  selectLoop2 pt pats addrs ⟨false, none⟩

/-- The Prefix Matcher contract in the spec's own words: normalize the
raw flag value by treating commas as equivalent to whitespace, then
split on any run of whitespace, discarding empty tokens and preserving
input order — that is, take the maximal runs of characters that are
neither whitespace nor commas. Stated separately from `parsePrefixes`
(which replaces commas first, then splits) so the two can be compared. -/
def specSplit (s : String) : List String :=
  (fieldsCore (fun c => goIsSpace c || c == ',') [] s.data).map List.asString

example : setupPrivateIPBlocks = .ok privateIPBlocks := by rfl

example : setupPrivateIPBlocks2 = .ok privateIPBlocks2 := by rfl

theorem qrLinks_nil : qrLinks [] = [] := rfl

theorem qrLinks_cons_log (s : String) (evs : List Event) :
    qrLinks (Event.logLine s :: evs) = qrLinks evs := rfl

theorem qrLinks_cons_qr (u : String) (evs : List Event) :
    qrLinks (Event.qr u :: evs) = u :: qrLinks evs := rfl

theorem qrLinks_append (a b : List Event) :
    qrLinks (a ++ b) = qrLinks a ++ qrLinks b := by
  simp [qrLinks, List.filterMap_append]

/-- Trace characterization of the selection loop from an arbitrary state:
the QR renderer receives the URL of every pattern-matching candidate in
order, and then, only if the flag is still clear and no candidate
matched, the recorded (or first upcoming public) fallback URL. -/
theorem selectLoop_qrLinks (pt : Nat) (pats : List String) :
    ∀ (addrs : List GoAddr) (st : SelState),
    qrLinks (selectLoop pt pats addrs st) =
      matchLinks pt pats addrs ++
        (if st.qrGenerated = true ∨ matchLinks pt pats addrs ≠ [] then []
         else (optFirst st.fallback (firstPublic pt addrs)).toList) := by
  intro addrs
  induction addrs with
  | nil =>
    intro st
    obtain ⟨g, fb⟩ := st
    cases g <;> cases fb <;>
      simp [selectLoop, matchLinks, firstPublic, optFirst, qrLinks]
  | cons a rest ih =>
    intro st
    cases a with
    | other =>
      simpa [selectLoop, processAddr, matchLinks, firstPublic] using ih st
    | ipNet n =>
      cases h4 : to4 n.ip with
      | none =>
        simpa [selectLoop, processAddr, h4, matchLinks, firstPublic] using ih st
      | some ip4 =>
        cases hm : firstMatchingPat (ipText n.ip) pats with
        | some p =>
          simp [selectLoop, processAddr, h4, hm, matchLinks, firstPublic,
            qrLinks_cons_log, qrLinks_cons_qr, qrLinks_append, ih]
          intro hg
          split at hg <;> simp_all
        | none =>
          by_cases hp : isPrivateIP n.ip
          · simp [selectLoop, processAddr, h4, hm, hp, matchLinks, firstPublic,
              qrLinks_cons_log, qrLinks_append, ih]
          · obtain ⟨g, fb⟩ := st
            cases fb <;>
              simp [selectLoop, processAddr, h4, hm, hp, matchLinks, firstPublic,
                optFirst, qrLinks_cons_log, qrLinks_append, ih]

/-- Trace characterization of the whole selection phase: matching
candidates' URLs in order, else the first public candidate's URL. -/
theorem selectPhase_qrLinks (pt : Nat) (pats : List String) (addrs : List GoAddr) :
    qrLinks (selectPhase pt pats addrs) =
      matchLinks pt pats addrs ++
        (if matchLinks pt pats addrs ≠ [] then []
         else (firstPublic pt addrs).toList) := by
  have h := selectLoop_qrLinks pt pats addrs ⟨false, none⟩
  simpa [selectPhase, optFirst] using h

theorem firstMatchingPat2_eq (s : String) :
    ∀ pats : List String, firstMatchingPat2 s pats = firstMatchingPat s pats := by
  intro pats
  induction pats with
  | nil => rfl
  | cons p ps ih => simp [firstMatchingPat, firstMatchingPat2, ih]

theorem isPrivateIP2_eq : ∀ ip : IP, isPrivateIP2 ip = isPrivateIP ip :=
  fun _ => rfl

theorem processAddr2_eq (pt : Nat) (pats : List String) (st : SelState) (a : GoAddr) :
    processAddr2 pt pats st a = processAddr pt pats st a := by
  cases a with
  | other => rfl
  | ipNet n =>
    simp [processAddr, processAddr2, firstMatchingPat2_eq, isPrivateIP2_eq]

theorem selectLoop2_eq (pt : Nat) (pats : List String) :
    ∀ (addrs : List GoAddr) (st : SelState),
    selectLoop2 pt pats addrs st = selectLoop pt pats addrs st := by
  intro addrs
  induction addrs with
  | nil => intro st; rfl
  | cons a rest ih =>
    intro st
    simp [selectLoop, selectLoop2, processAddr2_eq, ih]

theorem fieldsCore_ne_nil (p : Char → Bool) :
    ∀ (l cur t : List Char), t ∈ fieldsCore p cur l → t ≠ [] := by
  intro l
  induction l with
  | nil =>
    intro cur t ht
    simp only [fieldsCore] at ht
    split at ht
    · simp at ht
    · rename_i hcur
      simp at ht
      subst ht
      simp [List.isEmpty_iff] at hcur
      simpa using hcur
  | cons c cs ih =>
    intro cur t ht
    simp only [fieldsCore] at ht
    split at ht
    · split at ht
      · exact ih [] t ht
      · rename_i hcur
        simp at ht
        rcases ht with ht | ht
        · subst ht
          simp [List.isEmpty_iff] at hcur
          simpa using hcur
        · exact ih [] t ht
    · exact ih (c :: cur) t ht

theorem fieldsCore_replaceAll :
    ∀ (l cur : List Char),
    fieldsCore goIsSpace cur (l.map goReplaceCommas) =
      fieldsCore (fun c => goIsSpace c || c == ',') cur l := by
  intro l
  induction l with
  | nil => intro cur; rfl
  | cons c cs ih =>
    intro cur
    by_cases hc : c = ','
    · subst hc
      simp [goReplaceCommas, fieldsCore, show goIsSpace ' ' = true from rfl, ih]
    · have hrc : goReplaceCommas c = c := by simp [goReplaceCommas, hc]
      by_cases hs : goIsSpace c
      · simp [fieldsCore, hrc, hs, hc, ih]
      · simp [fieldsCore, hrc, hs, hc, ih]

theorem matchLinks_nil_pats (pt : Nat) :
    ∀ addrs : List GoAddr, matchLinks pt [] addrs = [] := by
  intro addrs
  induction addrs with
  | nil => rfl
  | cons a rest ih =>
    cases a with
    | other => simpa [matchLinks] using ih
    | ipNet n =>
      cases h4 : to4 n.ip <;>
        simp_all [matchLinks, firstMatchingPat, h4]

theorem setupFrom_ok_total :
    ∀ (cidrs : List String) (l : List IPNet), setupFrom cidrs = .ok l →
      l.length = cidrs.length ∧ ∀ c ∈ cidrs, parseCIDR c ≠ none := by
  intro cidrs
  induction cidrs with
  | nil =>
    intro l h
    simp only [setupFrom] at h
    cases h
    simp
  | cons c cs ih =>
    intro l h
    simp only [setupFrom] at h
    cases hp : parseCIDR c with
    | none => rw [hp] at h; cases h
    | some blk =>
      rw [hp] at h
      cases hr : setupFrom cs with
      | error e => rw [hr] at h; cases h
      | ok rest =>
        rw [hr] at h
        cases h
        obtain ⟨hlen, hall⟩ := ih rest hr
        refine ⟨by simp [hlen], ?_⟩
        intro x hx
        rcases List.mem_cons.mp hx with hx | hx
        · subst hx; simp [hp]
        · exact hall x hx

theorem setupFrom_fail_on_bad :
    ∀ (cidrs : List String) (c : String), c ∈ cidrs → parseCIDR c = none →
      ∃ e, setupFrom cidrs = .error e := by
  intro cidrs
  induction cidrs with
  | nil => intro c hc; cases hc
  | cons c0 cs ih =>
    intro c hc hbad
    rcases List.mem_cons.mp hc with hc | hc
    · subst hc
      exact ⟨"parse error on " ++ c, by simp [setupFrom, hbad]⟩
    · cases hp : parseCIDR c0 with
      | none => exact ⟨"parse error on " ++ c0, by simp [setupFrom, hp]⟩
      | some blk =>
        obtain ⟨e, he⟩ := ih c hc hbad
        exact ⟨e, by simp [setupFrom, hp, he]⟩

theorem runTriggers_append (c : ShutdownCtx) :
    ∀ l1 l2 : List Trigger, runTriggers c (l1 ++ l2) = runTriggers (runTriggers c l1) l2 := by
  intro l1
  induction l1 generalizing c with
  | nil => intro l2; rfl
  | cons t ts ih => intro l2; simp [runTriggers, ih]

theorem runTriggers_done :
    ∀ post : List Trigger, runTriggers ⟨true⟩ post = ⟨true⟩ := by
  intro post
  induction post with
  | nil => rfl
  | cons t ts ih => simpa [runTriggers, applyTrigger, cancelCtx] using ih

set_option maxRecDepth 4000 in
theorem land240_of_range : ∀ b : Nat, b < 256 → 16 ≤ b → b ≤ 31 → b &&& 240 = 16 := by
  decide

set_option maxRecDepth 4000 in
theorem land192_of_range : ∀ b : Nat, b < 256 → 128 ≤ b → b ≤ 191 → b &&& 192 = 128 := by
  decide

theorem isPrivateIP_127 (b c d : Nat) : isPrivateIP [127, b, c, d] = true := by
  simp [isPrivateIP, isLoopback, to4]

theorem isPrivateIP_10 (b c d : Nat) : isPrivateIP [10, b, c, d] = true := by
  simp [isPrivateIP, isLoopback, isLinkLocalUnicast, isLinkLocalMulticast, to4,
    privateIPBlocks, IPNet.contains, maskedEqAux, v6Loopback]

theorem isPrivateIP_172 (b c d : Nat) (hb : b &&& 240 = 16) :
    isPrivateIP [172, b, c, d] = true := by
  simp [isPrivateIP, isLoopback, isLinkLocalUnicast, isLinkLocalMulticast, to4,
    privateIPBlocks, IPNet.contains, maskedEqAux, v6Loopback, hb,
    show (16 : Nat) &&& 240 = 16 from by decide]

theorem isPrivateIP_192168 (c d : Nat) : isPrivateIP [192, 168, c, d] = true := by
  simp [isPrivateIP, isLoopback, isLinkLocalUnicast, isLinkLocalMulticast, to4,
    privateIPBlocks, IPNet.contains, maskedEqAux, v6Loopback]

theorem isPrivateIP_169254 (c d : Nat) : isPrivateIP [169, 254, c, d] = true := by
  simp [isPrivateIP, isLoopback, isLinkLocalUnicast, isLinkLocalMulticast, to4,
    privateIPBlocks, IPNet.contains, maskedEqAux, v6Loopback]

theorem isPrivateIP_fe80 (x2 x3 x4 x5 x6 x7 x8 x9 x10 x11 x12 x13 x14 x15 x16 : Nat)
    (hb : x2 &&& 192 = 128) :
    isPrivateIP [254, x2, x3, x4, x5, x6, x7, x8, x9, x10, x11, x12, x13, x14, x15, x16] =
      true := by
  simp [isPrivateIP, isLoopback, isLinkLocalUnicast, to4, v6Loopback, hb]

theorem isPrivateIP_ula (x1 x2 x3 x4 x5 x6 x7 x8 x9 x10 x11 x12 x13 x14 x15 x16 : Nat)
    (h1 : x1 = 252 ∨ x1 = 253) :
    isPrivateIP [x1, x2, x3, x4, x5, x6, x7, x8, x9, x10, x11, x12, x13, x14, x15, x16] =
      true := by
  rcases h1 with rfl | rfl <;>
    simp [isPrivateIP, isLoopback, isLinkLocalUnicast, isLinkLocalMulticast, to4,
      privateIPBlocks, IPNet.contains, maskedEqAux, v6Loopback,
      show (252 : Nat) &&& 254 = 252 from by decide,
      show (253 : Nat) &&& 254 = 252 from by decide]

/-- C5: isPrivateIP accepts every address in the loopback, RFC1918,
link-local and unique-local ranges and rejects the public 8.8.8.8. -/
theorem C5_isPrivateIP_ranges :
    (∀ a b c d : Nat, a < 256 → b < 256 → c < 256 → d < 256 →
      (a = 127 ∨ a = 10 ∨ (a = 172 ∧ 16 ≤ b ∧ b ≤ 31) ∨ (a = 192 ∧ b = 168) ∨
        (a = 169 ∧ b = 254)) →
      isPrivateIP [a, b, c, d] = true) ∧
    isPrivateIP v6Loopback = true ∧
    (∀ x2 x3 x4 x5 x6 x7 x8 x9 x10 x11 x12 x13 x14 x15 x16 : Nat,
      x2 < 256 → 128 ≤ x2 → x2 ≤ 191 →
      isPrivateIP [254, x2, x3, x4, x5, x6, x7, x8, x9, x10, x11, x12, x13, x14, x15, x16] =
        true) ∧
    (∀ x1 x2 x3 x4 x5 x6 x7 x8 x9 x10 x11 x12 x13 x14 x15 x16 : Nat,
      (x1 = 252 ∨ x1 = 253) →
      isPrivateIP [x1, x2, x3, x4, x5, x6, x7, x8, x9, x10, x11, x12, x13, x14, x15, x16] =
        true) ∧
    isPrivateIP [8, 8, 8, 8] = false := by
  refine ⟨?_, by decide, ?_, ?_, by decide⟩
  · intro a b c d ha hb hc hd hr
    rcases hr with rfl | rfl | ⟨rfl, h1, h2⟩ | ⟨rfl, rfl⟩ | ⟨rfl, rfl⟩
    · exact isPrivateIP_127 b c d
    · exact isPrivateIP_10 b c d
    · exact isPrivateIP_172 b c d (land240_of_range b hb h1 h2)
    · exact isPrivateIP_192168 c d
    · exact isPrivateIP_169254 c d
  · intro x2 x3 x4 x5 x6 x7 x8 x9 x10 x11 x12 x13 x14 x15 x16 hlt h1 h2
    exact isPrivateIP_fe80 _ _ _ _ _ _ _ _ _ _ _ _ _ _ _ (land192_of_range x2 hlt h1 h2)
  · intro x1 x2 x3 x4 x5 x6 x7 x8 x9 x10 x11 x12 x13 x14 x15 x16 h1
    exact isPrivateIP_ula _ _ _ _ _ _ _ _ _ _ _ _ _ _ _ _ h1

theorem C5_witness :
    isPrivateIP [10, 1, 2, 3] = true ∧
    isPrivateIP [172, 16, 0, 1] = true ∧
    isPrivateIP [254, 128, 0, 0, 0, 0, 0, 0, 0, 0, 0, 0, 0, 0, 0, 1] = true ∧
    isPrivateIP [253, 0, 0, 0, 0, 0, 0, 0, 0, 0, 0, 0, 0, 0, 0, 7] = true :=
  ⟨C5_isPrivateIP_ranges.1 10 1 2 3 (by decide) (by decide) (by decide) (by decide)
      (Or.inr (Or.inl rfl)),
   C5_isPrivateIP_ranges.1 172 16 0 1 (by decide) (by decide) (by decide) (by decide)
      (Or.inr (Or.inr (Or.inl ⟨rfl, by decide, by decide⟩))),
   C5_isPrivateIP_ranges.2.2.1 128 0 0 0 0 0 0 0 0 0 0 0 0 0 1
      (by decide) (by decide) (by decide),
   C5_isPrivateIP_ranges.2.2.2.1 253 0 0 0 0 0 0 0 0 0 0 0 0 0 0 7 (Or.inr rfl)⟩

theorem parsePrefixes_no_empty : ∀ s : String, ¬ ("" ∈ parsePrefixes s) := by
  intro s h
  simp [parsePrefixes, List.mem_map] at h
  obtain ⟨t, ht, hts⟩ := h
  have hne := fieldsCore_ne_nil goIsSpace _ _ t ht
  have := congrArg String.data hts
  simp [List.asString] at this
  exact hne this

/-- C4: parsePrefixes treats commas as whitespace, splits on whitespace
runs, discards empty tokens, preserves order; with the three examples. -/
theorem C4_parsePrefixes_behavior :
    parsePrefixes "192,10 172" = ["192", "10", "172"] ∧
    parsePrefixes "" = [] ∧
    parsePrefixes "  a ,, b" = ["a", "b"] ∧
    (∀ s : String, ¬ ("" ∈ parsePrefixes s)) ∧
    (∀ s : String, parsePrefixes s = specSplit s) := by
  refine ⟨by decide, by decide, by decide, parsePrefixes_no_empty, ?_⟩
  intro s
  simp [parsePrefixes, specSplit, fieldsCore_replaceAll]

theorem C4_witness :
    ¬ ("" ∈ parsePrefixes "a,,b") ∧ parsePrefixes "a,,b" = specSplit "a,,b" :=
  ⟨C4_parsePrefixes_behavior.2.2.2.1 "a,,b",
   C4_parsePrefixes_behavior.2.2.2.2 "a,,b"⟩

/-- C1 as stated is false: with two candidates both matching the default
pattern, the QR renderer is invoked twice in one run. -/
theorem C1_counterexample :
    ¬ ((qrLinks (selectPhase 3000 ["192"]
        [GoAddr.ipNet ⟨[192, 168, 0, 7], [255, 255, 255, 0]⟩,
         GoAddr.ipNet ⟨[192, 168, 0, 8], [255, 255, 255, 0]⟩])).length ≤ 1) := by
  decide

/-- C1 amended: the Presentation Sink is invoked at most once per
pattern-matching candidate, and at most once in total when at most one
candidate matches (in particular on the fallback path). -/
theorem C1_sink_bounded :
    ∀ (pt : Nat) (pats : List String) (addrs : List GoAddr),
    (qrLinks (selectPhase pt pats addrs)).length ≤
      max 1 (matchLinks pt pats addrs).length := by
  intro pt pats addrs
  rw [selectPhase_qrLinks]
  by_cases h : matchLinks pt pats addrs = []
  · cases hf : firstPublic pt addrs <;> simp [h, hf]
  · simp [h]

/-- C2: the QR-call sequence is exactly the matching candidates' URLs
whenever some candidate matches; each matching candidate contributes its
own invocation. -/
theorem C2_per_candidate_matching :
    ∀ (pt : Nat) (pats : List String) (addrs : List GoAddr),
    matchLinks pt pats addrs ≠ [] →
    qrLinks (selectPhase pt pats addrs) = matchLinks pt pats addrs := by
  intro pt pats addrs h
  simp [selectPhase_qrLinks, h]

theorem C2_witness :
    qrLinks (selectPhase 3000 ["192"]
      [GoAddr.ipNet ⟨[192, 168, 0, 7], [255, 255, 255, 0]⟩,
       GoAddr.ipNet ⟨[192, 168, 0, 8], [255, 255, 255, 0]⟩]) =
    matchLinks 3000 ["192"]
      [GoAddr.ipNet ⟨[192, 168, 0, 7], [255, 255, 255, 0]⟩,
       GoAddr.ipNet ⟨[192, 168, 0, 8], [255, 255, 255, 0]⟩] :=
  C2_per_candidate_matching 3000 ["192"] _ (by decide)

/-- C3: when no candidate matches a pattern, the QR renderer is invoked
exactly on the first public candidate's URL, or not at all. -/
theorem C3_public_fallback :
    ∀ (pt : Nat) (pats : List String) (addrs : List GoAddr),
    matchLinks pt pats addrs = [] →
    qrLinks (selectPhase pt pats addrs) = (firstPublic pt addrs).toList := by
  intro pt pats addrs h
  simp [selectPhase_qrLinks, h]

theorem C3_witness :
    qrLinks (selectPhase 3000 ["192"] [GoAddr.ipNet ⟨[8, 8, 8, 8], [255, 0, 0, 0]⟩]) =
      (firstPublic 3000 [GoAddr.ipNet ⟨[8, 8, 8, 8], [255, 0, 0, 0]⟩]).toList :=
  C3_public_fallback 3000 ["192"] _ (by decide)

/-- C6: table construction parses every entry or aborts, and the actual
eight-entry table parses in full. -/
theorem C6_table_construction :
    (∀ (cidrs : List String) (l : List IPNet), setupFrom cidrs = Except.ok l →
      l.length = cidrs.length ∧ ∀ c ∈ cidrs, parseCIDR c ≠ none) ∧
    (∀ (cidrs : List String) (c : String), c ∈ cidrs → parseCIDR c = none →
      ∃ e, setupFrom cidrs = Except.error e) ∧
    setupPrivateIPBlocks = Except.ok privateIPBlocks ∧
    privateIPBlocks.length = 8 :=
  ⟨setupFrom_ok_total, setupFrom_fail_on_bad, rfl, rfl⟩

theorem C6_witness :
    (privateIPBlocks.length = builtinCidrs.length ∧
      ∀ c ∈ builtinCidrs, parseCIDR c ≠ none) ∧
    (∃ e, setupFrom ["bogus/8"] = Except.error e) :=
  ⟨C6_table_construction.1 builtinCidrs privateIPBlocks rfl,
   C6_table_construction.2.1 ["bogus/8"] "bogus/8" (by simp) (by rfl)⟩

/-- C7: an interface-enumeration failure is fatal at startup and produces
no selection events. -/
theorem C7_enumeration_failure_fatal :
    ∀ (e : String) (pt : Nat) (raw : String),
    startup (Except.error e) pt raw = StartupResult.fatalExit e ∧
    startupEvents (startup (Except.error e) pt raw) = [] := by
  intro e pt raw
  exact ⟨rfl, rfl⟩

/-- C8: the shutdown signal is single-shot and monotone. -/
theorem C8_shutdown_single_shot :
    (∀ (pre : List Trigger) (t : Trigger),
      sessionPhase (runTriggers ⟨false⟩ (pre ++ [t])) = Phase.stopping) ∧
    (∀ (pre post : List Trigger),
      sessionPhase (runTriggers ⟨false⟩ pre) = Phase.stopping →
      runTriggers ⟨false⟩ (pre ++ post) = runTriggers ⟨false⟩ pre) ∧
    (∀ (c : ShutdownCtx) (post : List Trigger),
      sessionPhase c = Phase.stopping →
      sessionPhase (runTriggers c post) ≠ Phase.serving) := by
  refine ⟨?_, ?_, ?_⟩
  · intro pre t
    rw [runTriggers_append]
    rfl
  · intro pre post h
    have hc : runTriggers ⟨false⟩ pre = ⟨true⟩ := by
      rcases hr : runTriggers ⟨false⟩ pre with ⟨d⟩
      rw [hr] at h
      cases d
      · simp [sessionPhase] at h
      · rfl
    rw [runTriggers_append, hc, runTriggers_done]
  · intro c post h
    rcases c with ⟨d⟩
    cases d
    · simp [sessionPhase] at h
    · simp [runTriggers_done, sessionPhase]

theorem C8_witness :
    runTriggers ⟨false⟩ ([Trigger.timerFires] ++ [Trigger.interrupt]) =
      runTriggers ⟨false⟩ [Trigger.timerFires] ∧
    sessionPhase (runTriggers ⟨true⟩ [Trigger.interrupt]) ≠ Phase.serving :=
  ⟨C8_shutdown_single_shot.2.1 [Trigger.timerFires] [Trigger.interrupt] (by decide),
   C8_shutdown_single_shot.2.2 ⟨true⟩ [Trigger.interrupt] (by decide)⟩

theorem parsePrefixes2_eq : ∀ s : String, parsePrefixes2 s = parsePrefixes s :=
  fun _ => rfl

/-- C9: the two source versions' selection phases produce identical event
traces on every input. -/
theorem C9_versions_selection_equal :
    ∀ (pt : Nat) (raw : String) (addrs : List GoAddr),
    selectPhase pt (parsePrefixes raw) addrs =
      selectPhase2 pt (parsePrefixes2 raw) addrs := by
  intro pt raw addrs
  simp [selectPhase, selectPhase2, selectLoop2_eq, parsePrefixes2_eq]

/-- C10: with an empty pattern list no candidate matches, so the sink
fires exactly on the first public candidate, if any. -/
theorem C10_empty_pattern_fallback_only :
    ∀ (pt : Nat) (raw : String) (addrs : List GoAddr),
    parsePrefixes raw = [] →
    matchLinks pt (parsePrefixes raw) addrs = [] ∧
    qrLinks (selectPhase pt (parsePrefixes raw) addrs) =
      (firstPublic pt addrs).toList := by
  intro pt raw addrs h
  rw [h]
  exact ⟨matchLinks_nil_pats pt addrs,
    by simp [selectPhase_qrLinks, matchLinks_nil_pats]⟩

theorem C10_witness :
    matchLinks 3000 (parsePrefixes " ,, ")
      [GoAddr.ipNet ⟨[8, 8, 8, 8], [255, 0, 0, 0]⟩] = [] ∧
    qrLinks (selectPhase 3000 (parsePrefixes " ,, ")
      [GoAddr.ipNet ⟨[8, 8, 8, 8], [255, 0, 0, 0]⟩]) =
      (firstPublic 3000 [GoAddr.ipNet ⟨[8, 8, 8, 8], [255, 0, 0, 0]⟩]).toList :=
  C10_empty_pattern_fallback_only 3000 " ,, " _ (by decide)

end Webshare
